import Mathlib

/-!
Shallow embedding of `scripts/build_master_dbs.py`: the build-and-publish
pipeline that turns a per-artwork CSV plus an image-URL cache into two SQLite
snapshots (catalog, pull), a manifest, a checksum listing, and an atomically
republished `current` directory.

CSV rows are modelled as association lists from column name to string value
(`csv.DictReader` rows); SQLite tables as association lists; the row pass as a
left fold; file-system effects (release directory, `current`, `CURRENT_BUILD`)
as an explicit state record; `publish_current_release` additionally as an event
trace so that interrupted publishes can be examined.
-/

namespace ArtGG

/-- A parsed CSV row, as produced by `csv.DictReader`: a finite map from column
name to cell text.  `row.get(k)` is association-list lookup. -/
abbrev Row := List (String × String)

/-- Association-list lookup with decidable equality; models Python `dict.get`
and SQL lookup by a unique key. -/
def alookup {α β : Type} [DecidableEq α] (l : List (α × β)) (k : α) : Option β :=
  match l with
  | [] => none
  | p :: rest => if p.1 = k then some p.2 else alookup rest k

/-- Insert-or-replace by key (SQLite `INSERT OR REPLACE` on a primary key, or
Python `dict[k] = v`): replaces the existing entry in place, else appends. -/
def upsert {α β : Type} [DecidableEq α] (l : List (α × β)) (k : α) (v : β) : List (α × β) :=
  match l with
  | [] => [(k, v)]
  | p :: rest => if p.1 = k then (k, v) :: rest else p :: upsert rest k v

/-- Insert-if-absent (SQLite `INSERT OR IGNORE` on a primary key). -/
def insertIfAbsent {α : Type} [DecidableEq α] (l : List α) (a : α) : List α :=
  if a ∈ l then l else l ++ [a]

/-! ### Row normalizer (`parse_bool_int`, `parse_int_or_none`, `text`, `parse_tags`)

Python's `str.strip`, `str.lower` and `str.split` are modelled directly over
the character list of a string (structural recursion), so that all
definitions evaluate by kernel reduction. -/

/-- Python's default `str.strip` whitespace set (ASCII part): space, tab,
newline, carriage return, vertical tab, form feed. -/
def pyIsSpace (c : Char) : Bool :=
  (c == ' ') || (c == '\t') || (c == '\n') || (c == '\r') || (c.toNat == 11) || (c.toNat == 12)

/-- `str.strip()`: drop whitespace from both ends. -/
def pyStrip (s : String) : String :=
  ⟨((((s.data.dropWhile pyIsSpace).reverse).dropWhile pyIsSpace).reverse)⟩

/-- ASCII `str.lower()` on one character (the flag values this build lowers
are ASCII). -/
def lowerChar (c : Char) : Char :=
  if 65 ≤ c.toNat ∧ c.toNat ≤ 90 then Char.ofNat (c.toNat + 32) else c

/-- `str.lower()`. -/
def pyLower (s : String) : String :=
  ⟨s.data.map lowerChar⟩

/-- `str.split(sep)` for a one-character separator, Python semantics: empty
input gives `[""]`, adjacent separators give empty segments. -/
def pySplit (sep : Char) : List Char → List (List Char)
  | [] => [[]]
  | c :: rest =>
    match pySplit sep rest with
    | [] => [[]]
    | seg :: segs => if c = sep then [] :: seg :: segs else (c :: seg) :: segs

/-- `parse_bool_int`: case-insensitive match of the stripped value against
`{"1","true","t","yes","y"}` gives 1, anything else (including absent) 0. -/
def parse_bool_int (raw : Option String) : Nat :=
  match raw with
  | none => 0
  | some s =>
    let value := pyLower (pyStrip s)
    if value = "1" ∨ value = "true" ∨ value = "t" ∨ value = "yes" ∨ value = "y" then 1 else 0

/-- Value of a nonempty all-digit character list. -/
def digitsVal (l : List Char) : Nat :=
  l.foldl (fun a c => a * 10 + (c.toNat - 48)) 0

/-- Python `int(s)` on an already-stripped string: optional sign followed by a
nonempty digit run succeeds, anything else raises `ValueError` (here `none`).
(Underscore digit grouping, an exotic Python literal feature, is not modelled.) -/
def pyInt (s : String) : Option Int :=
  match s.data with
  | [] => none
  | c :: rest =>
    if c = '-' then
      if rest ≠ [] ∧ rest.all Char.isDigit then some (-(digitsVal rest : Int)) else none
    else if c = '+' then
      if rest ≠ [] ∧ rest.all Char.isDigit then some ((digitsVal rest : Int)) else none
    else
      if (c :: rest).all Char.isDigit then some ((digitsVal (c :: rest) : Int)) else none

/-- `parse_int_or_none`: `none` for absent, empty-after-strip, or non-numeric
input, otherwise the integer. -/
def parse_int_or_none (raw : Option String) : Option Int :=
  match raw with
  | none => none
  | some s =>
    let value := pyStrip s
    if value = "" then none else pyInt value

/-- `text`: strip, with absent mapped to the empty string. -/
def text (raw : Option String) : String :=
  pyStrip (raw.getD "")

/-- The stripped, nonempty segments of a raw tags cell split on `"|"`. -/
def tagSegments (s : String) : List String :=
  (((pySplit '|' s.data).map (fun seg => pyStrip ⟨seg⟩)).filter (fun t => t ≠ ""))

/-- Lexicographic comparison of character lists by code point — Python's `<=`
on strings, which is the order `sorted` uses. -/
def lexLe : List Char → List Char → Bool
  | [], _ => true
  | _ :: _, [] => false
  | a :: as, b :: bs =>
    if a.toNat < b.toNat then true
    else if a.toNat = b.toNat then lexLe as bs
    else false

/-- Python's `<=` on strings, as a relation. -/
def pyLE (a b : String) : Prop := lexLe a.data b.data = true

instance : DecidableRel pyLE := fun _ _ => inferInstanceAs (Decidable (_ = true))

instance : IsTotal String pyLE := by
  constructor
  intro a b
  show lexLe a.data b.data = true ∨ lexLe b.data a.data = true
  generalize a.data = x
  generalize b.data = y
  induction x generalizing y with
  | nil => exact Or.inl rfl
  | cons c cs ih =>
    cases y with
    | nil => exact Or.inr rfl
    | cons d ds =>
      simp only [lexLe]
      rcases Nat.lt_trichotomy c.toNat d.toNat with h | h | h
      · left; rw [if_pos h]
      · rcases ih ds with h2 | h2
        · left; rw [if_neg (by omega), if_pos h, h2]
        · right; rw [if_neg (by omega), if_pos h.symm, h2]
      · right; rw [if_pos h]

instance : IsTrans String pyLE := by
  constructor
  intro a b c
  show lexLe a.data b.data = true → lexLe b.data c.data = true → lexLe a.data c.data = true
  generalize a.data = x
  generalize b.data = y
  generalize c.data = z
  induction x generalizing y z with
  | nil => intro _ _; cases z <;> rfl
  | cons u us ih =>
    intro h1 h2
    cases y with
    | nil => cases h1
    | cons v vs =>
      cases z with
      | nil => cases h2
      | cons w ws =>
        simp only [lexLe] at h1 h2 ⊢
        by_cases huv : u.toNat < v.toNat <;> by_cases hvw : v.toNat < w.toNat <;>
          by_cases huv2 : u.toNat = v.toNat <;> by_cases hvw2 : v.toNat = w.toNat <;>
          first
            | (rw [if_pos (by omega)])
            | (rw [if_neg (by omega), if_pos (by omega)]
               rw [if_neg (by omega), if_pos (by omega)] at h1
               rw [if_neg (by omega), if_pos (by omega)] at h2
               exact ih vs ws h1 h2)
            | (rw [if_neg huv, if_neg huv2] at h1; cases h1)
            | (rw [if_neg hvw, if_neg hvw2] at h2; cases h2)

/-- `parse_tags`: split on `"|"`, strip each segment, drop empties, collect
into a set (Python set comprehension) and return `sorted(...)`: distinct
values in ascending code-point order, modelled as insertion sort over the
deduplicated segment list. -/
def parse_tags (raw : Option String) : List String :=
  match raw with
  | none => []
  | some s => List.insertionSort pyLE (tagSegments s).dedup

/-! ### Image map loader (`load_image_map`) -/

/-- One row of the external `image_cache` table:
`(object_id, primary_image, primary_image_small)`. -/
abbrev CacheRow := Int × String × String

/-- The in-memory image map built from the cache rows: the SQL filter keeps
rows where at least one raw URL field is non-empty, then each kept row is
assigned into a dict keyed by `int(object_id)` with `text`-stripped URLs
(later rows overwrite earlier ones with the same id). -/
def imageMapOfRows (rows : List CacheRow) : List (Int × (String × String)) :=
  (rows.filter (fun r => r.2.1 ≠ "" ∨ r.2.2 ≠ "")).foldl
    (fun m r => upsert m r.1 (text (some r.2.1), text (some r.2.2))) []

/-- `load_image_map`: raises `FileNotFoundError` when the cache DB is absent
(`none`), otherwise builds the id → (primary, small) map. -/
def load_image_map (cache_db : Option (List CacheRow)) :
    Except String (List (Int × (String × String))) :=
  match cache_db with
  | none => Except.error "Image cache DB not found"
  | some rows => Except.ok (imageMapOfRows rows)

/-! ### Build statistics (`BuildStats`) -/

/-- The counters of the `BuildStats` dataclass, all starting at 0. -/
structure BuildStats where
  rows_scanned : Nat := 0
  rows_with_images : Nat := 0
  rows_skipped_no_images : Nat := 0
  rows_skipped_bad_object_id : Nat := 0
  rows_public_domain : Nat := 0
  rows_highlight : Nat := 0
  rows_with_images_from_cache : Nat := 0
  rows_with_images_from_csv_fallback : Nat := 0
  deriving DecidableEq

/-! ### Tag dictionary (`get_or_create_tag_id`) -/

/-- The tag state of one schema: the `tags` table (an association list of
`(value, id)` rows, `value` unique), SQLite's `AUTOINCREMENT` counter for the
next id (starting at 1), and the in-memory `tag_cache` dict. -/
structure TagState where
  nextId : Nat := 1
  table : List (String × Nat) := []
  cache : List (String × Nat) := []
  deriving DecidableEq

/-- `INSERT OR IGNORE INTO tags(value) VALUES (?)`: appends a fresh row with
the next `AUTOINCREMENT` id when the value is absent, does nothing when it is
already present. -/
def insertOrIgnoreTag (s : TagState) (tag_value : String) : TagState :=
  match alookup s.table tag_value with
  | some _ => s
  | none => { s with table := s.table ++ [(tag_value, s.nextId)], nextId := s.nextId + 1 }

/-- `get_or_create_tag_id`: consult the in-memory cache first; on a miss,
insert-if-absent into the `tags` table, `SELECT` the id back (raising
`RuntimeError` if that lookup somehow failed), and record it in the cache. -/
def get_or_create_tag_id (s : TagState) (tag_value : String) :
    Except String (Nat × TagState) :=
  match alookup s.cache tag_value with
  | some tag_id => Except.ok (tag_id, s)
  | none =>
    let s1 := insertOrIgnoreTag s tag_value
    match alookup s1.table tag_value with
    | some tag_id => Except.ok (tag_id, { s1 with cache := s1.cache ++ [(tag_value, tag_id)] })
    | none => Except.error ("Unable to resolve tag id for: " ++ tag_value)

/-- Number of storage statements `get_or_create_tag_id` executes on the given
state: 0 on a cache hit, 2 (`INSERT OR IGNORE` + `SELECT`) on a cache miss. -/
def tagStorageQueries (s : TagState) (tag_value : String) : Nat :=
  match alookup s.cache tag_value with
  | some _ => 0
  | none => 2

/-- Total projection of `get_or_create_tag_id`; `get_or_create_ok` below
proves the `RuntimeError` branch unreachable, so the two agree everywhere. -/
def callTag (s : TagState) (tag_value : String) : Nat × TagState :=
  match get_or_create_tag_id s tag_value with
  | Except.ok r => r
  | Except.error _ => (0, s)

/-- A sequence of further `get_or_create_tag_id` calls applied to a state. -/
def applyCalls (s : TagState) (calls : List String) : TagState :=
  calls.foldl (fun st v => (callTag st v).2) s

/-! ### Objects of the two schemas -/

/-- A row of the catalog schema's `objects` table (the full projection),
minus the `object_id` key it is stored under. -/
structure CatalogObject where
  title : String
  artist_display_name : String
  artist_display_bio : String
  artist_nationality : String
  artist_begin_date : String
  artist_end_date : String
  object_date : String
  object_begin_date : Option Int
  object_end_date : Option Int
  department : String
  classification : String
  object_name : String
  medium : String
  culture : String
  country : String
  is_public_domain : Nat
  is_highlight : Nat
  link_resource : String
  primary_image : String
  primary_image_small : String
  metadata_json : List (String × String)
  deriving DecidableEq

/-- A row of the pull schema's `objects` table (the reduced projection). -/
structure PullObject where
  title : String
  artist_display_name : String
  object_begin_date : Option Int
  object_end_date : Option Int
  department : String
  classification : String
  medium : String
  is_public_domain : Nat
  primary_image : String
  primary_image_small : String
  deriving DecidableEq

/-- `json.dumps(row, ensure_ascii=True, sort_keys=True)`, at the logical
level: the row's entries sorted by key. -/
def metadataOf (row : Row) : List (String × String) :=
  List.insertionSort (fun a b => pyLE a.1 b.1) row

/-- The catalog `objects` row built from a CSV row (lines 370-405 of the
script), given the resolved image pair and parsed flags. -/
def catalogObjectOfRow (row : Row) (primary_image primary_image_small : String)
    (is_public_domain is_highlight : Nat) : CatalogObject where
  title := text (alookup row "Title")
  artist_display_name := text (alookup row "Artist Display Name")
  artist_display_bio := text (alookup row "Artist Display Bio")
  artist_nationality := text (alookup row "Artist Nationality")
  artist_begin_date := text (alookup row "Artist Begin Date")
  artist_end_date := text (alookup row "Artist End Date")
  object_date := text (alookup row "Object Date")
  object_begin_date := parse_int_or_none (alookup row "Object Begin Date")
  object_end_date := parse_int_or_none (alookup row "Object End Date")
  department := text (alookup row "Department")
  classification := text (alookup row "Classification")
  object_name := text (alookup row "Object Name")
  medium := text (alookup row "Medium")
  culture := text (alookup row "Culture")
  country := text (alookup row "Country")
  is_public_domain := is_public_domain
  is_highlight := is_highlight
  link_resource := text (alookup row "Link Resource")
  primary_image := primary_image
  primary_image_small := primary_image_small
  metadata_json := metadataOf row

/-- The pull `objects` row built from a CSV row (lines 407-428). -/
def pullObjectOfRow (row : Row) (primary_image primary_image_small : String)
    (is_public_domain : Nat) : PullObject where
  title := text (alookup row "Title")
  artist_display_name := text (alookup row "Artist Display Name")
  object_begin_date := parse_int_or_none (alookup row "Object Begin Date")
  object_end_date := parse_int_or_none (alookup row "Object End Date")
  department := text (alookup row "Department")
  classification := text (alookup row "Classification")
  medium := text (alookup row "Medium")
  is_public_domain := is_public_domain
  primary_image := primary_image
  primary_image_small := primary_image_small

/-! ### The row pass (`build_master_dbs`, lines 331-450) -/

/-- The mutable tables of one schema during the pass. -/
structure SchemaState (α : Type) where
  objects : List (Int × α) := []
  tags : TagState := {}
  objTags : List (Int × Nat) := []

/-- The whole in-memory/build-database state during the pass. -/
structure BuildState where
  stats : BuildStats := {}
  catalog : SchemaState CatalogObject := {}
  pull : SchemaState PullObject := {}

/-- One tag of one row, applied to one schema: get-or-create the tag id,
then `INSERT OR IGNORE` the `(object_id, tag_id)` association. -/
def schemaAddTag {α : Type} (object_id : Int) (tag : String) (s : SchemaState α) :
    SchemaState α :=
  let r := callTag s.tags tag
  { s with tags := r.2, objTags := insertIfAbsent s.objTags (object_id, r.1) }

/-- The tag loop of one row (lines 430-442), over both schemas in lock-step. -/
def addTags (object_id : Int) (tags : List String)
    (c : SchemaState CatalogObject) (p : SchemaState PullObject) :
    SchemaState CatalogObject × SchemaState PullObject :=
  tags.foldl (fun cp tag => (schemaAddTag object_id tag cp.1, schemaAddTag object_id tag cp.2))
    (c, p)

/-- Image resolution for one row (lines 342-358): consult the image map
first (counting a cache hit), else fall back to the row's own image columns
(counting a fallback hit only when at least one is non-empty).  Returns the
resolved pair and the updated counters. -/
def resolveImages (image_map : List (Int × (String × String))) (row : Row) (object_id : Int)
    (stats0 : BuildStats) : String × String × BuildStats :=
  match alookup image_map object_id with
  | some pair =>
    (pair.1, pair.2,
      { stats0 with rows_with_images_from_cache := stats0.rows_with_images_from_cache + 1 })
  | none =>
    let primary_image := text (alookup row "Primary Image")
    let primary_image_small := text (alookup row "Primary Image Small")
    if primary_image ≠ "" ∨ primary_image_small ≠ "" then
      (primary_image, primary_image_small,
        { stats0 with rows_with_images_from_csv_fallback :=
            stats0.rows_with_images_from_csv_fallback + 1 })
    else (primary_image, primary_image_small, stats0)

/-- The insert part of one row iteration (lines 360-444): parse the flags,
bump their counters, upsert the object into both schemas, run the tag loop,
and count the row as carrying images. -/
def insertRow (row : Row) (object_id : Int) (primary_image primary_image_small : String)
    (stats1 : BuildStats) (st : BuildState) : BuildState :=
  let is_public_domain := parse_bool_int (alookup row "Is Public Domain")
  let is_highlight := parse_bool_int (alookup row "Is Highlight")
  let stats2 := { stats1 with
    rows_public_domain := stats1.rows_public_domain + (if is_public_domain ≠ 0 then 1 else 0),
    rows_highlight := stats1.rows_highlight + (if is_highlight ≠ 0 then 1 else 0) }
  let cobj := catalogObjectOfRow row primary_image primary_image_small
    is_public_domain is_highlight
  let pobj := pullObjectOfRow row primary_image primary_image_small is_public_domain
  let catalog1 := { st.catalog with objects := upsert st.catalog.objects object_id cobj }
  let pull1 := { st.pull with objects := upsert st.pull.objects object_id pobj }
  let cp := addTags object_id (parse_tags (alookup row "Tags")) catalog1 pull1
  { stats := { stats2 with rows_with_images := stats2.rows_with_images + 1 },
    catalog := cp.1, pull := cp.2 }

/-- One iteration of the row loop (lines 333-450): count the row as scanned,
skip on an unparseable id, resolve images, skip when both are empty, else
insert.  Commits/`BEGIN`s only delimit transactions and do not change the
logical table contents, so they are not modelled. -/
def processRow (image_map : List (Int × (String × String))) (st : BuildState) (row : Row) :
    BuildState :=
  let stats0 := { st.stats with rows_scanned := st.stats.rows_scanned + 1 }
  match parse_int_or_none (alookup row "Object ID") with
  | none =>
    { st with stats :=
        { stats0 with rows_skipped_bad_object_id := stats0.rows_skipped_bad_object_id + 1 } }
  | some object_id =>
    let r := resolveImages image_map row object_id stats0
    if r.1 = "" ∧ r.2.1 = "" then
      { st with stats :=
          { r.2.2 with rows_skipped_no_images := r.2.2.rows_skipped_no_images + 1 } }
    else insertRow row object_id r.1 r.2.1 r.2.2 st

/-- The whole row pass over the CSV, in input order, from the empty state. -/
def processRows (image_map : List (Int × (String × String))) (rows : List Row) : BuildState :=
  rows.foldl (processRow image_map) {}

/-! ### Pull-schema finalization (`finalize_pull_schema`) -/

/-- The `object_tags JOIN objects` rows, as `(tag_id, is_public_domain)`
pairs; association rows whose object id is missing from `objects` drop out of
the inner join. -/
def joinRows (objects : List (Int × PullObject)) (objTags : List (Int × Nat)) :
    List (Nat × Nat) :=
  objTags.filterMap (fun p => (alookup objects p.1).map (fun o => (p.2, o.is_public_domain)))

/-- The `tag_stats` rows: for each tag id of the join, `COUNT(*)` and
`SUM(o.is_public_domain)` over its group
(`tag_id ↦ (object_count, public_domain_count)`). -/
def finalize_pull_schema (objects : List (Int × PullObject)) (objTags : List (Int × Nat)) :
    List (Nat × (Nat × Nat)) :=
  ((joinRows objects objTags).map Prod.fst).dedup.map
    (fun t =>
      (t, (((joinRows objects objTags).filter (fun q => q.1 = t)).length,
        (((joinRows objects objTags).filter (fun q => q.1 = t)).map Prod.snd).sum)))

/-! ### Build metadata, database contents, release and publish -/

/-- The one `datetime.now(timezone.utc)` observation of a run:
`build_id = now.strftime("%Y%m%dT%H%M%SZ")` and `now.isoformat()`. -/
structure Timestamp where
  build_id : String
  iso : String
  deriving DecidableEq

/-- The `build_info` rows inserted into both schemas (lines 313-321). -/
def buildInfoOf (csvPath cachePath : String) (now : Timestamp) : List (String × String) :=
  [("build_id", now.build_id), ("generated_at_utc", now.iso), ("source_csv", csvPath),
    ("source_image_cache_db", cachePath), ("script", "cleaning/build_master_dbs.py")]

/-- The logical content of `catalog_master.db` after a completed build. -/
structure CatalogDb where
  build_info : List (String × String)
  objects : List (Int × CatalogObject)
  tags : List (String × Nat)
  object_tags : List (Int × Nat)
  deriving DecidableEq

/-- The logical content of `pull_master.db` after a completed build. -/
structure PullDb where
  build_info : List (String × String)
  objects : List (Int × PullObject)
  tags : List (String × Nat)
  object_tags : List (Int × Nat)
  tag_stats : List (Nat × (Nat × Nat))
  deriving DecidableEq

/-- The two database contents produced by one run: the row pass followed by
finalization.  The SHA-256 of a database file is a function of this content
(given SQLite's deterministic serialization of the same operation sequence),
so content equality models hash equality throughout. -/
def buildDbContents (csvPath cachePath : String) (now : Timestamp)
    (image_map : List (Int × (String × String))) (rows : List Row) : CatalogDb × PullDb :=
  let st := processRows image_map rows
  ({ build_info := buildInfoOf csvPath cachePath now,
     objects := st.catalog.objects,
     tags := st.catalog.tags.table,
     object_tags := st.catalog.objTags },
   { build_info := buildInfoOf csvPath cachePath now,
     objects := st.pull.objects,
     tags := st.pull.tags.table,
     object_tags := st.pull.objTags,
     tag_stats := finalize_pull_schema st.pull.objects st.pull.objTags })

/-- `manifest.json` for one build.  The two `sha256` fields hold the hashed
content itself: SHA-256 is deterministic and treated as collision-free, so
two hashes are equal exactly when these contents are. -/
structure Manifest where
  build_id : String
  generated_at_utc : String
  catalog_sha256 : CatalogDb
  pull_sha256 : PullDb
  catalog_objects : Nat
  catalog_tags : Nat
  pull_objects : Nat
  pull_tags : Nat
  stats : BuildStats
  deriving DecidableEq

/-- The manifest of a successful run (lines 492-516): build identity, the
content hashes (here: the hashed contents), byte-level sizes are omitted,
per-output object/tag counts (`SELECT COUNT(*)`), and the stats snapshot. -/
def buildManifest (csvPath cachePath : String) (now : Timestamp)
    (image_map : List (Int × (String × String))) (rows : List Row) : Manifest where
  build_id := now.build_id
  generated_at_utc := now.iso
  catalog_sha256 := (buildDbContents csvPath cachePath now image_map rows).1
  pull_sha256 := (buildDbContents csvPath cachePath now image_map rows).2
  catalog_objects := (buildDbContents csvPath cachePath now image_map rows).1.objects.length
  catalog_tags := (buildDbContents csvPath cachePath now image_map rows).1.tags.length
  pull_objects := (buildDbContents csvPath cachePath now image_map rows).2.objects.length
  pull_tags := (buildDbContents csvPath cachePath now image_map rows).2.tags.length
  stats := (processRows image_map rows).stats

/-- One `releases/<build_id>` directory: the artifacts it holds so far
(`none` = file not written). -/
structure Release where
  catalog_db : Option CatalogDb := none
  pull_db : Option PullDb := none
  manifest : Option Manifest := none
  checksums : Option (CatalogDb × PullDb) := none
  deriving DecidableEq

/-- The externally visible output tree under `--output-root`. -/
structure FS where
  releases : List (String × Release) := []
  current : Option Release := none
  current_build : Option String := none
  deriving DecidableEq

/-- Remove the entry with the given key (`shutil.rmtree` of one release
directory). -/
def removeKey {α β : Type} [DecidableEq α] (l : List (α × β)) (k : α) : List (α × β) :=
  l.filter (fun p => p.1 ≠ k)

/-- How a run of `build_master_dbs` can fail. -/
inductive BuildError where
  | csvNotFound : BuildError
  | cacheNotFound : BuildError
  | releaseDirExists : BuildError
  | buildFailure : String → BuildError
  deriving DecidableEq

/-- The observable outcome of one `build_master_dbs` run: the returned
manifest or propagated error, the resulting output tree, and whether each
database connection was closed by the time the function exited. -/
structure BuildOutcome where
  result : Except BuildError Manifest
  fs : FS
  catalogConnClosed : Bool
  pullConnClosed : Bool

/-- `build_master_dbs(csv_path, cache_db_path, output_root)` over the
file-system model.  `csv`/`cache_db` are `none` when the input file is
absent.  `passError` injects an arbitrary error raised during the row pass or
finalization (the `except Exception` block, lines 465-469: close both
connections, `rmtree` the release directory, re-raise); the model's own pass
is total, so an injected error is the only way that branch runs. -/
def build_master_dbs (csv : Option (List Row)) (cache_db : Option (List CacheRow))
    (csvPath cachePath : String) (now : Timestamp) (passError : Option String) (fs : FS) :
    BuildOutcome :=
  match csv with
  | none => ⟨Except.error BuildError.csvNotFound, fs, true, true⟩
  | some rows =>
    match load_image_map cache_db with
    | Except.error _ => ⟨Except.error BuildError.cacheNotFound, fs, true, true⟩
    | Except.ok image_map =>
      match alookup fs.releases now.build_id with
      | some _ => ⟨Except.error BuildError.releaseDirExists, fs, true, true⟩
      | none =>
        let fs1 : FS := { fs with releases := fs.releases ++ [(now.build_id, {})] }
        match passError with
        | some e =>
          ⟨Except.error (BuildError.buildFailure e),
            { fs1 with releases := removeKey fs1.releases now.build_id }, true, true⟩
        | none =>
          let dbs := buildDbContents csvPath cachePath now image_map rows
          let manifest : Manifest := buildManifest csvPath cachePath now image_map rows
          let rel : Release :=
            { catalog_db := some dbs.1, pull_db := some dbs.2,
              manifest := some manifest, checksums := some (dbs.1, dbs.2) }
          ⟨Except.ok manifest,
            { releases := upsert fs1.releases now.build_id rel,
              current := some rel, current_build := some now.build_id }, true, true⟩

/-! ### `publish_current_release` as an event trace

`shutil.copytree` is not atomic, so the publish step is modelled at the
granularity of its externally visible effects: one optional `rmtree` of
`current`, one file copy per release file, one marker write.  An interrupted
publish is a run of a proper prefix of the trace. -/

/-- One externally visible publisher effect. -/
inductive PubEv where
  | rmtreeCurrent : PubEv
  | copyFile : String → String → PubEv
  | writeMarker : String → PubEv
  deriving DecidableEq

/-- The effect trace of `publish_current_release` (lines 269-274): remove
`current` if it exists, copy every release file into `current`, then write
`CURRENT_BUILD`. -/
def publish_current_release (current_exists : Bool) (files : List (String × String))
    (build_id : String) : List PubEv :=
  (if current_exists then [PubEv.rmtreeCurrent] else []) ++
    files.map (fun f => PubEv.copyFile f.1 f.2) ++ [PubEv.writeMarker build_id]

/-- The state the publisher mutates: the `current` directory (as the list of
files copied so far) and the `CURRENT_BUILD` marker. -/
structure CurrentState where
  current : Option (List (String × String)) := none
  marker : Option String := none
  deriving DecidableEq

/-- Apply one publisher effect. -/
def pubStep (st : CurrentState) : PubEv → CurrentState
  | PubEv.rmtreeCurrent => { st with current := none }
  | PubEv.copyFile n c => { st with current := some ((st.current.getD []) ++ [(n, c)]) }
  | PubEv.writeMarker b => { st with marker := some b }

/-- Run a (possibly truncated) publisher trace. -/
def runPub (st : CurrentState) (evs : List PubEv) : CurrentState :=
  evs.foldl pubStep st

/-! ### Well-formedness of a tag state -/

/-- Number of `tags` rows holding a given value. -/
def countKey (l : List (String × Nat)) (v : String) : Nat :=
  (l.filter (fun p => p.1 = v)).length

/-- A tag state is well-formed when table values are unique (the `UNIQUE`
constraint) and every cache entry agrees with the table.  The empty state is
well-formed and `get_or_create_tag_id` preserves well-formedness. -/
def TagWF (s : TagState) : Prop :=
  (s.table.map Prod.fst).Nodup ∧ ∀ p ∈ s.cache, alookup s.table p.1 = some p.2

/-- `AUTOINCREMENT` id assignment: the `tags` table holds ids `1, 2, 3, …` in
insertion (first-occurrence) order, and the counter is one past the last. -/
def TagIdsSeq (s : TagState) : Prop :=
  s.table.map Prod.snd = List.range' 1 s.table.length ∧ s.nextId = s.table.length + 1

/-- The pass invariant: the stats partition, lock-step object keys, identical
tag dictionaries with sequential ids, and referential soundness of the pull
association table. -/
def BuildInv (st : BuildState) : Prop :=
  st.stats.rows_scanned =
      st.stats.rows_with_images + st.stats.rows_skipped_no_images +
        st.stats.rows_skipped_bad_object_id ∧
  st.catalog.objects.map Prod.fst = st.pull.objects.map Prod.fst ∧
  st.catalog.tags = st.pull.tags ∧
  TagIdsSeq st.catalog.tags ∧
  TagWF st.catalog.tags ∧
  (∀ p ∈ st.pull.objTags, (alookup st.pull.objects p.1).isSome = true) ∧
  (∀ q ∈ st.pull.objects, q.2.is_public_domain = 0 ∨ q.2.is_public_domain = 1)

/-! ## Helper lemmas: association lists -/

theorem alookup_append_of_none {α β : Type} [DecidableEq α] {l1 : List (α × β)}
    (l2 : List (α × β)) {k : α} (h : alookup l1 k = none) :
    alookup (l1 ++ l2) k = alookup l2 k := by
  induction l1 with
  | nil => rfl
  | cons p rest ih =>
    by_cases hp : p.1 = k
    · simp [alookup, hp] at h
    · simp only [List.cons_append, alookup, if_neg hp] at h ⊢
      exact ih h

theorem alookup_append_of_some {α β : Type} [DecidableEq α] {l1 : List (α × β)}
    (l2 : List (α × β)) {k : α} {v : β} (h : alookup l1 k = some v) :
    alookup (l1 ++ l2) k = some v := by
  induction l1 with
  | nil => cases h
  | cons p rest ih =>
    by_cases hp : p.1 = k
    · simp only [alookup, if_pos hp] at h
      simp only [List.cons_append, alookup, if_pos hp, h]
    · simp only [List.cons_append, alookup, if_neg hp] at h ⊢
      exact ih h

theorem alookup_none_of_not_mem_keys {α β : Type} [DecidableEq α] {l : List (α × β)} {k : α}
    (h : k ∉ l.map Prod.fst) : alookup l k = none := by
  induction l with
  | nil => rfl
  | cons p rest ih =>
    simp only [List.map_cons, List.mem_cons, not_or] at h
    have hp : ¬ p.1 = k := fun he => h.1 he.symm
    simp only [alookup, if_neg hp]
    exact ih h.2

theorem mem_keys_of_alookup_some {α β : Type} [DecidableEq α] {l : List (α × β)} {k : α} {v : β}
    (h : alookup l k = some v) : k ∈ l.map Prod.fst := by
  induction l with
  | nil => cases h
  | cons p rest ih =>
    by_cases hp : p.1 = k
    · simp [hp]
    · simp only [alookup, if_neg hp] at h
      simp [ih h]

theorem mem_of_alookup_some {α β : Type} [DecidableEq α] {l : List (α × β)} {k : α} {v : β}
    (h : alookup l k = some v) : (k, v) ∈ l := by
  induction l with
  | nil => cases h
  | cons p rest ih =>
    obtain ⟨a, b⟩ := p
    by_cases hp : a = k
    · simp only [alookup, if_pos hp] at h
      have hb : b = v := Option.some.inj h
      subst hp
      subst hb
      exact List.mem_cons_self _ _
    · simp only [alookup, if_neg hp] at h
      exact List.mem_cons_of_mem _ (ih h)

theorem alookup_isSome_of_mem_keys {α β : Type} [DecidableEq α] {l : List (α × β)} {k : α}
    (h : k ∈ l.map Prod.fst) : (alookup l k).isSome := by
  cases he : alookup l k with
  | some v => rfl
  | none =>
    induction l with
    | nil => simp at h
    | cons p rest ih =>
      by_cases hp : p.1 = k
      · simp [alookup, hp] at he
      · simp only [alookup, if_neg hp] at he
        simp only [List.map_cons, List.mem_cons] at h
        rcases h with h | h
        · exact absurd h.symm hp
        · exact ih h he

theorem map_fst_upsert {α β : Type} [DecidableEq α] (l : List (α × β)) (k : α) (v : β) :
    (upsert l k v).map Prod.fst =
      if k ∈ l.map Prod.fst then l.map Prod.fst else l.map Prod.fst ++ [k] := by
  induction l with
  | nil => simp [upsert]
  | cons p rest ih =>
    by_cases hp : p.1 = k
    · simp [upsert, hp]
    · have hcons : k ∈ (p :: rest).map Prod.fst ↔ k ∈ rest.map Prod.fst := by
        simp only [List.map_cons, List.mem_cons]
        constructor
        · rintro (h | h)
          · exact absurd h.symm hp
          · exact h
        · exact Or.inr
      by_cases hm : k ∈ rest.map Prod.fst
      · rw [if_pos (hcons.mpr hm)]
        simp only [upsert, if_neg hp, List.map_cons, ih, if_pos hm]
      · rw [if_neg (fun hh => hm (hcons.mp hh))]
        simp only [upsert, if_neg hp, List.map_cons, ih, if_neg hm, List.cons_append]

theorem mem_upsert {α β : Type} [DecidableEq α] {l : List (α × β)} {k : α} {v : β} {p : α × β}
    (h : p ∈ upsert l k v) : p = (k, v) ∨ p ∈ l := by
  induction l with
  | nil => simpa [upsert] using h
  | cons q rest ih =>
    by_cases hq : q.1 = k
    · simp only [upsert, if_pos hq, List.mem_cons] at h
      rcases h with h | h
      · exact Or.inl h
      · exact Or.inr (List.mem_cons_of_mem _ h)
    · simp only [upsert, if_neg hq, List.mem_cons] at h
      rcases h with h | h
      · exact Or.inr (by simp [h])
      · rcases ih h with h2 | h2
        · exact Or.inl h2
        · exact Or.inr (List.mem_cons_of_mem _ h2)

theorem alookup_upsert_self {α β : Type} [DecidableEq α] (l : List (α × β)) (k : α) (v : β) :
    alookup (upsert l k v) k = some v := by
  induction l with
  | nil => simp [upsert, alookup]
  | cons p rest ih =>
    by_cases hp : p.1 = k
    · simp [upsert, alookup, hp]
    · simp only [upsert, if_neg hp, alookup, if_neg hp]
      exact ih

theorem alookup_upsert_ne {α β : Type} [DecidableEq α] (l : List (α × β)) {k k' : α} (v : β)
    (h : k' ≠ k) : alookup (upsert l k v) k' = alookup l k' := by
  induction l with
  | nil => simp only [upsert, alookup, if_neg (fun he : k = k' => h he.symm)]
  | cons p rest ih =>
    by_cases hp : p.1 = k
    · simp only [upsert, if_pos hp, alookup, if_neg (fun he : k = k' => h he.symm), hp,
        if_neg (hp ▸ fun he : k = k' => h he.symm)]
    · simp only [upsert, if_neg hp, alookup]
      by_cases hp' : p.1 = k'
      · simp [hp']
      · simp only [if_neg hp']
        exact ih

theorem removeKey_append_singleton {α β : Type} [DecidableEq α] (l : List (α × β)) (k : α)
    (v : β) (h : alookup l k = none) : removeKey (l ++ [(k, v)]) k = l := by
  induction l with
  | nil => simp [removeKey]
  | cons p rest ih =>
    by_cases hp : p.1 = k
    · simp [alookup, hp] at h
    · simp only [alookup, if_neg hp] at h
      have ih2 := ih h
      simp only [removeKey] at ih2 ⊢
      have hf : decide (p.1 ≠ k) = true := by simp [hp]
      rw [List.cons_append, List.filter_cons, if_pos hf, ih2]

/-! ## Helper lemmas: the tag dictionary -/

theorem countKey_eq_zero_of_not_mem {l : List (String × Nat)} {v : String}
    (h : v ∉ l.map Prod.fst) : countKey l v = 0 := by
  induction l with
  | nil => rfl
  | cons p rest ih =>
    simp only [List.map_cons, List.mem_cons, not_or] at h
    simp only [countKey, List.filter_cons]
    rw [if_neg (by simp; exact fun he => h.1 he.symm)]
    exact ih h.2

theorem countKey_eq_one_of_nodup {l : List (String × Nat)} {v : String}
    (hn : (l.map Prod.fst).Nodup) (hm : v ∈ l.map Prod.fst) : countKey l v = 1 := by
  induction l with
  | nil => simp at hm
  | cons p rest ih =>
    simp only [List.map_cons, List.nodup_cons] at hn
    simp only [List.map_cons, List.mem_cons] at hm
    simp only [countKey, List.filter_cons]
    rcases hm with hm | hm
    · rw [if_pos (by simp [hm.symm])]
      have h0 : countKey rest v = 0 := countKey_eq_zero_of_not_mem (hm ▸ hn.1)
      simp only [countKey] at h0
      simp [h0]
    · have hne : p.1 ≠ v := fun he => hn.1 (he ▸ hm)
      rw [if_neg (by simp [hne])]
      exact ih hn.2 hm

theorem countKey_append_singleton (l : List (String × Nat)) (w : String) (n : Nat)
    (v : String) :
    countKey (l ++ [(w, n)]) v = countKey l v + (if w = v then 1 else 0) := by
  simp only [countKey, List.filter_append, List.length_append]
  by_cases h : w = v <;> simp [List.filter_cons, h]

theorem mem_of_countKey_pos {l : List (String × Nat)} {v : String}
    (h : 0 < countKey l v) : v ∈ l.map Prod.fst := by
  by_contra hm
  rw [countKey_eq_zero_of_not_mem hm] at h
  exact Nat.lt_irrefl 0 h

theorem insertOrIgnoreTag_cache (s : TagState) (v : String) :
    (insertOrIgnoreTag s v).cache = s.cache := by
  unfold insertOrIgnoreTag
  cases alookup s.table v <;> rfl

theorem insertOrIgnoreTag_nextId_table (s : TagState) (v : String) :
    (insertOrIgnoreTag s v).table = s.table ∧ (insertOrIgnoreTag s v).nextId = s.nextId ∨
      alookup s.table v = none ∧
        (insertOrIgnoreTag s v).table = s.table ++ [(v, s.nextId)] ∧
        (insertOrIgnoreTag s v).nextId = s.nextId + 1 := by
  unfold insertOrIgnoreTag
  cases h : alookup s.table v with
  | some id => exact Or.inl ⟨rfl, rfl⟩
  | none => exact Or.inr ⟨rfl, rfl, rfl⟩

theorem insertOrIgnoreTag_lookup (s : TagState) (v : String) :
    ∃ id, alookup (insertOrIgnoreTag s v).table v = some id := by
  unfold insertOrIgnoreTag
  cases h : alookup s.table v with
  | some id => exact ⟨id, h⟩
  | none => exact ⟨s.nextId, by rw [alookup_append_of_none _ h]; simp [alookup]⟩

theorem insertOrIgnoreTag_lookup_mono {s : TagState} {v : String} {id : Nat}
    (h : alookup s.table v = some id) (w : String) :
    alookup (insertOrIgnoreTag s w).table v = some id := by
  unfold insertOrIgnoreTag
  cases alookup s.table w with
  | some j => exact h
  | none => exact alookup_append_of_some _ h

theorem get_or_create_hit {s : TagState} {v : String} {id : Nat}
    (h : alookup s.cache v = some id) :
    get_or_create_tag_id s v = Except.ok (id, s) := by
  simp [get_or_create_tag_id, h]

theorem get_or_create_isOk (s : TagState) (v : String) :
    ∃ r, get_or_create_tag_id s v = Except.ok r := by
  cases hc : alookup s.cache v with
  | some id => exact ⟨(id, s), get_or_create_hit hc⟩
  | none =>
    obtain ⟨id, hid⟩ := insertOrIgnoreTag_lookup s v
    refine ⟨(id, { insertOrIgnoreTag s v with
      cache := (insertOrIgnoreTag s v).cache ++ [(v, id)] }), ?_⟩
    simp [get_or_create_tag_id, hc, hid]

theorem get_or_create_eq_ok (s : TagState) (v : String) :
    get_or_create_tag_id s v = Except.ok (callTag s v) := by
  obtain ⟨r, hr⟩ := get_or_create_isOk s v
  simp [callTag, hr]

theorem callTag_hit {s : TagState} {v : String} {id : Nat}
    (h : alookup s.cache v = some id) : callTag s v = (id, s) := by
  simp [callTag, get_or_create_hit h]

theorem callTag_miss {s : TagState} {v : String} (h : alookup s.cache v = none) :
    ∃ id, alookup (insertOrIgnoreTag s v).table v = some id ∧
      callTag s v = (id, { insertOrIgnoreTag s v with cache := s.cache ++ [(v, id)] }) := by
  obtain ⟨id, hid⟩ := insertOrIgnoreTag_lookup s v
  refine ⟨id, hid, ?_⟩
  simp [callTag, get_or_create_tag_id, h, hid, insertOrIgnoreTag_cache]

theorem callTag_cache_self (s : TagState) (v : String) :
    alookup (callTag s v).2.cache v = some (callTag s v).1 := by
  cases hc : alookup s.cache v with
  | some id => rw [callTag_hit hc]; exact hc
  | none =>
    obtain ⟨id, _, hct⟩ := callTag_miss hc
    rw [hct]
    simp only
    rw [alookup_append_of_none _ hc]
    simp [alookup]

theorem callTag_cache_mono {s : TagState} {v : String} {id : Nat}
    (h : alookup s.cache v = some id) (w : String) :
    alookup (callTag s w).2.cache v = some id := by
  cases hc : alookup s.cache w with
  | some j => rw [callTag_hit hc]; exact h
  | none =>
    obtain ⟨j, _, hct⟩ := callTag_miss hc
    rw [hct]
    exact alookup_append_of_some _ h

theorem callTag_table_cached {s : TagState} (hwf : TagWF s) (v : String) :
    alookup (callTag s v).2.table v = some (callTag s v).1 := by
  cases hc : alookup s.cache v with
  | some id =>
    rw [callTag_hit hc]
    exact hwf.2 _ (mem_of_alookup_some hc)
  | none =>
    obtain ⟨id, hid, hct⟩ := callTag_miss hc
    rw [hct]
    exact hid

theorem callTag_wf {s : TagState} (hwf : TagWF s) (v : String) : TagWF (callTag s v).2 := by
  cases hc : alookup s.cache v with
  | some id => rw [callTag_hit hc]; exact hwf
  | none =>
    obtain ⟨id, hid, hct⟩ := callTag_miss hc
    rw [hct]
    rcases insertOrIgnoreTag_nextId_table s v with ⟨ht, _⟩ | ⟨hnone, ht, _⟩
    · constructor
      · simp only [ht]
        exact hwf.1
      · intro p hp
        simp only [ht]
        rcases List.mem_append.mp hp with hp | hp
        · exact hwf.2 p hp
        · simp only [List.mem_singleton] at hp
          subst hp
          rw [← ht]
          exact hid
    · constructor
      · simp only [ht, List.map_append, List.map_cons, List.map_nil]
        rw [List.nodup_append]
        refine ⟨hwf.1, List.nodup_singleton v, ?_⟩
        intro a ha hb
        simp only [List.mem_singleton] at hb
        subst hb
        have hs := alookup_isSome_of_mem_keys ha
        rw [hnone] at hs
        simp at hs
      · intro p hp
        rcases List.mem_append.mp hp with hp | hp
        · rw [ht]
          exact alookup_append_of_some _ (hwf.2 p hp)
        · simp only [List.mem_singleton] at hp
          subst hp
          exact hid

theorem callTag_countKey_self {s : TagState} (hwf : TagWF s) (v : String) :
    countKey (callTag s v).2.table v = 1 := by
  have hl := callTag_table_cached hwf v
  have hwf2 := callTag_wf hwf v
  exact countKey_eq_one_of_nodup hwf2.1 (mem_keys_of_alookup_some hl)

theorem callTag_countKey_mono {s : TagState} {v : String}
    (hc : countKey s.table v = 1) (w : String) :
    countKey (callTag s w).2.table v = 1 := by
  cases hcw : alookup s.cache w with
  | some j => rw [callTag_hit hcw]; exact hc
  | none =>
    obtain ⟨j, _, hct⟩ := callTag_miss hcw
    rw [hct]
    simp only
    rcases insertOrIgnoreTag_nextId_table s w with ⟨ht, _⟩ | ⟨hnone, ht, _⟩
    · rw [ht]; exact hc
    · rw [ht, countKey_append_singleton]
      have hwv : w ≠ v := by
        intro he
        subst he
        have : w ∈ s.table.map Prod.fst := mem_of_countKey_pos (by omega)
        have := alookup_isSome_of_mem_keys this
        rw [hnone] at this
        cases this
      rw [if_neg hwv]
      simp [hc]

theorem applyCalls_wf {s : TagState} (hwf : TagWF s) (calls : List String) :
    TagWF (applyCalls s calls) := by
  induction calls generalizing s with
  | nil => exact hwf
  | cons w rest ih => exact ih (callTag_wf hwf w)

theorem applyCalls_cache_mono {s : TagState} {v : String} {id : Nat}
    (h : alookup s.cache v = some id) (calls : List String) :
    alookup (applyCalls s calls).cache v = some id := by
  induction calls generalizing s with
  | nil => exact h
  | cons w rest ih => exact ih (callTag_cache_mono h w)

theorem applyCalls_countKey {s : TagState} {v : String}
    (hc : countKey s.table v = 1) (calls : List String) :
    countKey (applyCalls s calls).table v = 1 := by
  induction calls generalizing s with
  | nil => exact hc
  | cons w rest ih => exact ih (callTag_countKey_mono hc w)

theorem callTag_idsSeq {s : TagState} (h : TagIdsSeq s) (v : String) :
    TagIdsSeq (callTag s v).2 := by
  cases hc : alookup s.cache v with
  | some id => rw [callTag_hit hc]; exact h
  | none =>
    obtain ⟨id, _, hct⟩ := callTag_miss hc
    rw [hct]
    rcases insertOrIgnoreTag_nextId_table s v with ⟨ht, hn⟩ | ⟨_, ht, hn⟩
    · exact ⟨by simp only [ht]; exact h.1, by simp only [ht, hn]; exact h.2⟩
    · constructor
      · simp only [ht, List.map_append, List.map_cons, List.map_nil, List.length_append,
          List.length_cons, List.length_nil]
        rw [h.1, h.2, List.range'_1_concat]
        simp [Nat.add_comm]
      · simp only [ht, hn, List.length_append, List.length_cons, List.length_nil]
        rw [h.2]

/-! ## Helper lemmas: the row pass -/

theorem mem_insertIfAbsent {α : Type} [DecidableEq α] {l : List α} {a q : α}
    (h : q ∈ insertIfAbsent l a) : q ∈ l ∨ q = a := by
  unfold insertIfAbsent at h
  by_cases hm : a ∈ l
  · rw [if_pos hm] at h
    exact Or.inl h
  · rw [if_neg hm] at h
    rcases List.mem_append.mp h with h | h
    · exact Or.inl h
    · exact Or.inr (List.mem_singleton.mp h)

theorem upsert_isSome_mono {α β : Type} [DecidableEq α] {l : List (α × β)} {k' : α}
    (h : (alookup l k').isSome = true) (k : α) (v : β) :
    (alookup (upsert l k v) k').isSome = true := by
  by_cases he : k' = k
  · subst he
    rw [alookup_upsert_self]
    rfl
  · rw [alookup_upsert_ne _ _ he]
    exact h

theorem parse_bool_int_zero_or_one (raw : Option String) :
    parse_bool_int raw = 0 ∨ parse_bool_int raw = 1 := by
  unfold parse_bool_int
  cases raw with
  | none => exact Or.inl rfl
  | some s =>
    simp only
    split
    · exact Or.inr rfl
    · exact Or.inl rfl

theorem schemaAddTag_objects {α : Type} (oid : Int) (tag : String) (s : SchemaState α) :
    (schemaAddTag oid tag s).objects = s.objects := rfl

theorem schemaAddTag_tags {α : Type} (oid : Int) (tag : String) (s : SchemaState α) :
    (schemaAddTag oid tag s).tags = (callTag s.tags tag).2 := rfl

theorem addTags_objects (oid : Int) (ts : List String) (c : SchemaState CatalogObject)
    (p : SchemaState PullObject) :
    (addTags oid ts c p).1.objects = c.objects ∧ (addTags oid ts c p).2.objects = p.objects := by
  induction ts generalizing c p with
  | nil => exact ⟨rfl, rfl⟩
  | cons w rest ih =>
    have := ih (schemaAddTag oid w c) (schemaAddTag oid w p)
    exact ⟨this.1, this.2⟩

theorem addTags_tags_eq (oid : Int) (ts : List String) {c : SchemaState CatalogObject}
    {p : SchemaState PullObject} (h : c.tags = p.tags) :
    (addTags oid ts c p).1.tags = (addTags oid ts c p).2.tags := by
  induction ts generalizing c p with
  | nil => exact h
  | cons w rest ih =>
    exact ih (show (schemaAddTag oid w c).tags = (schemaAddTag oid w p).tags by
      rw [schemaAddTag_tags, schemaAddTag_tags, h])

theorem addTags_idsSeq (oid : Int) (ts : List String) {c : SchemaState CatalogObject}
    {p : SchemaState PullObject} (h : TagIdsSeq c.tags) :
    TagIdsSeq (addTags oid ts c p).1.tags := by
  induction ts generalizing c p with
  | nil => exact h
  | cons w rest ih => exact ih (callTag_idsSeq h w)

theorem addTags_wf (oid : Int) (ts : List String) {c : SchemaState CatalogObject}
    {p : SchemaState PullObject} (h : TagWF c.tags) :
    TagWF (addTags oid ts c p).1.tags := by
  induction ts generalizing c p with
  | nil => exact h
  | cons w rest ih => exact ih (callTag_wf h w)

theorem addTags_objTags_mem (oid : Int) (ts : List String) {c : SchemaState CatalogObject}
    {p : SchemaState PullObject} {q : Int × Nat}
    (h : q ∈ (addTags oid ts c p).2.objTags) : q ∈ p.objTags ∨ q.1 = oid := by
  induction ts generalizing c p with
  | nil => exact Or.inl h
  | cons w rest ih =>
    rcases ih h with h2 | h2
    · rcases mem_insertIfAbsent h2 with h3 | h3
      · exact Or.inl h3
      · exact Or.inr (by rw [h3])
    · exact Or.inr h2

theorem resolveImages_stats (m : List (Int × (String × String))) (row : Row) (oid : Int)
    (stats0 : BuildStats) :
    (resolveImages m row oid stats0).2.2.rows_scanned = stats0.rows_scanned ∧
    (resolveImages m row oid stats0).2.2.rows_with_images = stats0.rows_with_images ∧
    (resolveImages m row oid stats0).2.2.rows_skipped_no_images =
      stats0.rows_skipped_no_images ∧
    (resolveImages m row oid stats0).2.2.rows_skipped_bad_object_id =
      stats0.rows_skipped_bad_object_id := by
  unfold resolveImages
  cases alookup m oid with
  | some pair => exact ⟨rfl, rfl, rfl, rfl⟩
  | none =>
    simp only
    split
    · exact ⟨rfl, rfl, rfl, rfl⟩
    · exact ⟨rfl, rfl, rfl, rfl⟩

theorem insertRow_inv {row : Row} {oid : Int} {pi ps : String} {stats1 : BuildStats}
    {st : BuildState} (h : BuildInv st)
    (e1 : stats1.rows_scanned = st.stats.rows_scanned + 1)
    (e2 : stats1.rows_with_images = st.stats.rows_with_images)
    (e3 : stats1.rows_skipped_no_images = st.stats.rows_skipped_no_images)
    (e4 : stats1.rows_skipped_bad_object_id = st.stats.rows_skipped_bad_object_id) :
    BuildInv (insertRow row oid pi ps stats1 st) := by
  obtain ⟨h1, h2, h3, h4, h5, h6, h7⟩ := h
  set ipd := parse_bool_int (alookup row "Is Public Domain") with hipd
  set ihl := parse_bool_int (alookup row "Is Highlight") with hihl
  set T := parse_tags (alookup row "Tags") with hT
  set cobj := catalogObjectOfRow row pi ps ipd ihl with hcobj
  set pobj := pullObjectOfRow row pi ps ipd with hpobj
  set catalog1 : SchemaState CatalogObject :=
    { st.catalog with objects := upsert st.catalog.objects oid cobj } with hc1
  set pull1 : SchemaState PullObject :=
    { st.pull with objects := upsert st.pull.objects oid pobj } with hp1
  have hobj := addTags_objects oid T catalog1 pull1
  refine ⟨?_, ?_, ?_, ?_, ?_, ?_, ?_⟩
  · show stats1.rows_scanned =
      (stats1.rows_with_images + 1) + stats1.rows_skipped_no_images +
        stats1.rows_skipped_bad_object_id
    omega
  · show ((addTags oid T catalog1 pull1).1.objects.map Prod.fst) =
      ((addTags oid T catalog1 pull1).2.objects.map Prod.fst)
    rw [hobj.1, hobj.2]
    show (upsert st.catalog.objects oid cobj).map Prod.fst =
      (upsert st.pull.objects oid pobj).map Prod.fst
    rw [map_fst_upsert, map_fst_upsert, h2]
  · show (addTags oid T catalog1 pull1).1.tags = (addTags oid T catalog1 pull1).2.tags
    exact addTags_tags_eq oid T (show catalog1.tags = pull1.tags from h3)
  · show TagIdsSeq (addTags oid T catalog1 pull1).1.tags
    exact addTags_idsSeq oid T (show TagIdsSeq catalog1.tags from h4)
  · show TagWF (addTags oid T catalog1 pull1).1.tags
    exact addTags_wf oid T (show TagWF catalog1.tags from h5)
  · intro p hp
    replace hp : p ∈ (addTags oid T catalog1 pull1).2.objTags := hp
    show (alookup (addTags oid T catalog1 pull1).2.objects p.1).isSome = true
    rw [hobj.2]
    show (alookup (upsert st.pull.objects oid pobj) p.1).isSome = true
    rcases addTags_objTags_mem oid T hp with h8 | h8
    · exact upsert_isSome_mono (h6 p h8) oid pobj
    · rw [h8, alookup_upsert_self]
      rfl
  · intro q hq
    replace hq : q ∈ (addTags oid T catalog1 pull1).2.objects := hq
    rw [hobj.2] at hq
    replace hq : q ∈ upsert st.pull.objects oid pobj := hq
    rcases mem_upsert hq with h8 | h8
    · rw [h8]
      exact parse_bool_int_zero_or_one _
    · exact h7 q h8

theorem processRow_inv {m : List (Int × (String × String))} {st : BuildState} (row : Row)
    (h : BuildInv st) : BuildInv (processRow m st row) := by
  cases hid : parse_int_or_none (alookup row "Object ID") with
  | none =>
    obtain ⟨h1, h2, h3, h4, h5, h6, h7⟩ := h
    simp only [processRow, hid]
    refine ⟨?_, h2, h3, h4, h5, h6, h7⟩
    show st.stats.rows_scanned + 1 =
      st.stats.rows_with_images + st.stats.rows_skipped_no_images +
        (st.stats.rows_skipped_bad_object_id + 1)
    omega
  | some oid =>
    have hrs := resolveImages_stats m row oid
      { st.stats with rows_scanned := st.stats.rows_scanned + 1 }
    by_cases hskip :
        (resolveImages m row oid
          { st.stats with rows_scanned := st.stats.rows_scanned + 1 }).1 = "" ∧
        (resolveImages m row oid
          { st.stats with rows_scanned := st.stats.rows_scanned + 1 }).2.1 = ""
    · obtain ⟨h1, h2, h3, h4, h5, h6, h7⟩ := h
      simp only [processRow, hid]
      rw [if_pos hskip]
      refine ⟨?_, h2, h3, h4, h5, h6, h7⟩
      have hv1 := hrs.1
      have hv2 := hrs.2.1
      have hv3 := hrs.2.2.1
      have hv4 := hrs.2.2.2
      simp only at hv1 hv2 hv3 hv4 ⊢
      omega
    · simp only [processRow, hid]
      rw [if_neg hskip]
      exact insertRow_inv h hrs.1 hrs.2.1 hrs.2.2.1 hrs.2.2.2

theorem processRows_inv (m : List (Int × (String × String))) (rows : List Row) :
    BuildInv (processRows m rows) := by
  have base : BuildInv {} := by
    refine ⟨rfl, rfl, rfl, ⟨rfl, rfl⟩, ⟨List.nodup_nil, ?_⟩, ?_, ?_⟩ <;> intro p hp <;> cases hp
  show BuildInv (rows.foldl (processRow m) {})
  generalize hstart : ({} : BuildState) = start at base
  clear hstart
  induction rows generalizing start with
  | nil => exact base
  | cons r rest ih => exact ih _ (processRow_inv r base)

/-! ## Claim theorems -/

/-- C1: for every completed build (any image map and any CSV row sequence),
the final `BuildStats` counters satisfy
`rows_scanned = rows_with_images + rows_skipped_no_images + rows_skipped_bad_object_id`:
each scanned row increments exactly one of the three right-hand counters. -/
theorem C1_stats_partition (image_map : List (Int × (String × String))) (rows : List Row) :
    (processRows image_map rows).stats.rows_scanned =
      (processRows image_map rows).stats.rows_with_images +
        (processRows image_map rows).stats.rows_skipped_no_images +
        (processRows image_map rows).stats.rows_skipped_bad_object_id :=
  (processRows_inv image_map rows).1

/-- C2: for every completed build, the `object_id` sets of the catalog and
pull `objects` tables coincide — in fact the two key sequences are equal
outright, because every row passing the id and image filters is upserted into
both schemas and every skipped row reaches neither. -/
theorem C2_object_sets_equal (image_map : List (Int × (String × String))) (rows : List Row) :
    (processRows image_map rows).catalog.objects.map Prod.fst =
      (processRows image_map rows).pull.objects.map Prod.fst ∧
    ∀ oid : Int,
      oid ∈ (processRows image_map rows).catalog.objects.map Prod.fst ↔
        oid ∈ (processRows image_map rows).pull.objects.map Prod.fst :=
  ⟨(processRows_inv image_map rows).2.1,
    fun _ => by rw [(processRows_inv image_map rows).2.1]⟩

/-- C10: for every completed build, the catalog and pull tag dictionaries are
identical as value→id maps — the whole tag state (table, `AUTOINCREMENT`
counter and cache) is equal, because both receive the identical sequence of
get-or-create calls — and ids are assigned `1, 2, 3, …` in first-occurrence
order. -/
theorem C10_tag_dicts_identical (image_map : List (Int × (String × String)))
    (rows : List Row) :
    (processRows image_map rows).catalog.tags = (processRows image_map rows).pull.tags ∧
    (processRows image_map rows).catalog.tags.table.map Prod.snd =
      List.range' 1 (processRows image_map rows).catalog.tags.table.length :=
  ⟨(processRows_inv image_map rows).2.2.1, (processRows_inv image_map rows).2.2.2.1.1⟩

/-- C7: `parse_tags` splits on `"|"`, trims each segment, drops empties,
deduplicates by exact string equality and returns the distinct values sorted
ascending in Python's code-point string order (`pyLE`); an absent input
yields `[]`, and `"Portrait | portrait |Nude"` yields exactly
`["Nude", "Portrait", "portrait"]` (trimming only, no case folding). -/
theorem C7_parse_tags_spec :
    parse_tags none = [] ∧
    parse_tags (some "Portrait | portrait |Nude") = ["Nude", "Portrait", "portrait"] ∧
    ∀ raw : String,
      (parse_tags (some raw)).Sorted pyLE ∧
      (parse_tags (some raw)).Nodup ∧
      ∀ t : String, t ∈ parse_tags (some raw) ↔ t ∈ tagSegments raw := by
  refine ⟨rfl, by decide, fun raw => ⟨?_, ?_, ?_⟩⟩
  · exact List.sorted_insertionSort pyLE _
  · exact ((List.perm_insertionSort pyLE _).nodup_iff).mpr (List.nodup_dedup _)
  · intro t
    show t ∈ List.insertionSort pyLE (tagSegments raw).dedup ↔ t ∈ tagSegments raw
    rw [(List.perm_insertionSort pyLE _).mem_iff, List.mem_dedup]

/-- C6: within one build and one schema, `get_or_create_tag_id` on a
well-formed tag state returns a surrogate id for the value and, after any
further sequence of get-or-create calls, a repeat call on that value returns
the same id with the state unchanged, the `tags` table holds exactly one row
for the value, the id is served from the in-memory cache, and zero storage
statements are executed (`tagStorageQueries = 0`); every association for the
value therefore references the same single id. -/
theorem C6_tag_idempotent (s : TagState) (v : String) (hwf : TagWF s) :
    ∃ id s1, get_or_create_tag_id s v = Except.ok (id, s1) ∧
      ∀ calls : List String,
        get_or_create_tag_id (applyCalls s1 calls) v =
          Except.ok (id, applyCalls s1 calls) ∧
        countKey (applyCalls s1 calls).table v = 1 ∧
        alookup (applyCalls s1 calls).cache v = some id ∧
        tagStorageQueries (applyCalls s1 calls) v = 0 := by
  refine ⟨(callTag s v).1, (callTag s v).2, get_or_create_eq_ok s v, ?_⟩
  intro calls
  have hcache : alookup (applyCalls (callTag s v).2 calls).cache v = some (callTag s v).1 :=
    applyCalls_cache_mono (callTag_cache_self s v) calls
  refine ⟨get_or_create_hit hcache, ?_, hcache, ?_⟩
  · exact applyCalls_countKey (callTag_countKey_self hwf v) calls
  · simp [tagStorageQueries, hcache]

/-- Witness for C6 at the empty tag state and the value `"Nude"`. -/
theorem C6_tag_idempotent_witness :
    ∃ id s1,
      get_or_create_tag_id { nextId := 1, table := [], cache := [] } "Nude" =
        Except.ok (id, s1) ∧
      ∀ calls : List String,
        get_or_create_tag_id (applyCalls s1 calls) "Nude" =
          Except.ok (id, applyCalls s1 calls) ∧
        countKey (applyCalls s1 calls).table "Nude" = 1 ∧
        alookup (applyCalls s1 calls).cache "Nude" = some id ∧
        tagStorageQueries (applyCalls s1 calls) "Nude" = 0 :=
  C6_tag_idempotent { nextId := 1, table := [], cache := [] } "Nude"
    ⟨List.nodup_nil, by intro p hp; cases hp⟩

/-! ## Helper lemmas: `tag_stats` aggregation -/

theorem alookup_map_graph {α β : Type} [DecidableEq α] (f : α → β) {l : List α} {t : α}
    (ht : t ∈ l) : alookup (l.map (fun x => (x, f x))) t = some (f t) := by
  induction l with
  | nil => cases ht
  | cons a rest ih =>
    by_cases ha : a = t
    · subst ha
      simp [alookup]
    · have ht2 : t ∈ rest := by
        rcases List.mem_cons.mp ht with h | h
        · exact absurd h.symm ha
        · exact h
      simp only [List.map_cons, alookup]
      rw [if_neg ha]
      exact ih ht2

theorem joinRows_cons_some {objects : List (Int × PullObject)} {p : Int × Nat}
    {o : PullObject} (ho : alookup objects p.1 = some o) (rest : List (Int × Nat)) :
    joinRows objects (p :: rest) = (p.2, o.is_public_domain) :: joinRows objects rest := by
  simp [joinRows, List.filterMap_cons, ho]

theorem joinRows_map_fst {objects : List (Int × PullObject)} {objTags : List (Int × Nat)}
    (hcov : ∀ p ∈ objTags, (alookup objects p.1).isSome = true) :
    (joinRows objects objTags).map Prod.fst = objTags.map Prod.snd := by
  induction objTags with
  | nil => rfl
  | cons p rest ih =>
    obtain ⟨o, ho⟩ := Option.isSome_iff_exists.mp (hcov p (List.mem_cons_self p rest))
    rw [joinRows_cons_some ho]
    simp only [List.map_cons]
    rw [ih (fun q hq => hcov q (List.mem_cons_of_mem _ hq))]

theorem joinRows_count {objects : List (Int × PullObject)} {objTags : List (Int × Nat)}
    (hcov : ∀ p ∈ objTags, (alookup objects p.1).isSome = true) (t : Nat) :
    ((joinRows objects objTags).filter (fun q => q.1 = t)).length =
      (objTags.filter (fun p => p.2 = t)).length := by
  induction objTags with
  | nil => rfl
  | cons p rest ih =>
    obtain ⟨o, ho⟩ := Option.isSome_iff_exists.mp (hcov p (List.mem_cons_self p rest))
    rw [joinRows_cons_some ho]
    have ih2 := ih (fun q hq => hcov q (List.mem_cons_of_mem _ hq))
    by_cases hpt : p.2 = t
    · simp [List.filter_cons, hpt, ih2]
    · simp [List.filter_cons, hpt, ih2]

theorem joinRows_pd_sum {objects : List (Int × PullObject)} {objTags : List (Int × Nat)}
    (hcov : ∀ p ∈ objTags, (alookup objects p.1).isSome = true)
    (hpd : ∀ q ∈ objects, q.2.is_public_domain = 0 ∨ q.2.is_public_domain = 1) (t : Nat) :
    (((joinRows objects objTags).filter (fun q => q.1 = t)).map Prod.snd).sum =
      ((objTags.filter (fun p => p.2 = t)).filter
        (fun p => (alookup objects p.1).map PullObject.is_public_domain = some 1)).length := by
  induction objTags with
  | nil => rfl
  | cons p rest ih =>
    obtain ⟨o, ho⟩ := Option.isSome_iff_exists.mp (hcov p (List.mem_cons_self p rest))
    have hdom := hpd (p.1, o) (mem_of_alookup_some ho)
    simp only at hdom
    rw [joinRows_cons_some ho]
    have ih2 := ih (fun q hq => hcov q (List.mem_cons_of_mem _ hq))
    by_cases hpt : p.2 = t
    · rw [List.filter_cons, List.filter_cons,
        if_pos (show (decide ((p.2, o.is_public_domain).1 = t)) = true by simp [hpt]),
        if_pos (show (decide (p.2 = t)) = true by simp [hpt]),
        List.map_cons, List.sum_cons, List.filter_cons]
      rcases hdom with h0 | h1
      · rw [if_neg (show ¬((decide ((alookup objects p.1).map PullObject.is_public_domain =
            some 1)) = true) by simp [ho, h0]), h0, Nat.zero_add]
        exact ih2
      · rw [if_pos (show (decide ((alookup objects p.1).map PullObject.is_public_domain =
            some 1)) = true by simp [ho, h1]), h1, List.length_cons]
        omega
    · rw [List.filter_cons, List.filter_cons,
        if_neg (show ¬((decide ((p.2, o.is_public_domain).1 = t)) = true) by simp [hpt]),
        if_neg (show ¬((decide (p.2 = t)) = true) by simp [hpt])]
      exact ih2

theorem finalize_pull_schema_lookup {objects : List (Int × PullObject)}
    {objTags : List (Int × Nat)}
    (hcov : ∀ p ∈ objTags, (alookup objects p.1).isSome = true)
    (hpd : ∀ q ∈ objects, q.2.is_public_domain = 0 ∨ q.2.is_public_domain = 1) {t : Nat}
    (ht : t ∈ objTags.map Prod.snd) :
    alookup (finalize_pull_schema objects objTags) t =
      some ((objTags.filter (fun p => p.2 = t)).length,
        ((objTags.filter (fun p => p.2 = t)).filter
          (fun p => (alookup objects p.1).map PullObject.is_public_domain = some 1)).length) := by
  have htids : t ∈ ((joinRows objects objTags).map Prod.fst).dedup := by
    rw [List.mem_dedup, joinRows_map_fst hcov]
    exact ht
  unfold finalize_pull_schema
  rw [alookup_map_graph
    (fun t => (((joinRows objects objTags).filter (fun q => q.1 = t)).length,
      (((joinRows objects objTags).filter (fun q => q.1 = t)).map Prod.snd).sum)) htids]
  rw [joinRows_count hcov t, joinRows_pd_sum hcov hpd t]

/-- C8: after pull-schema finalization, for every tag id appearing in
`object_tags`, the `tag_stats` row for it holds `object_count` equal to the
number of `object_tags` rows referencing the tag and `public_domain_count`
equal to the number of those rows whose referenced object has
`is_public_domain = 1`; `tag_stats` is computed once, from the completed
pass state, and nothing modifies it afterward. -/
theorem C8_tag_stats (image_map : List (Int × (String × String))) (rows : List Row)
    (t : Nat) (ht : t ∈ (processRows image_map rows).pull.objTags.map Prod.snd) :
    alookup (finalize_pull_schema (processRows image_map rows).pull.objects
        (processRows image_map rows).pull.objTags) t =
      some (((processRows image_map rows).pull.objTags.filter (fun p => p.2 = t)).length,
        (((processRows image_map rows).pull.objTags.filter (fun p => p.2 = t)).filter
          (fun p => (alookup (processRows image_map rows).pull.objects p.1).map
            PullObject.is_public_domain = some 1)).length) :=
  finalize_pull_schema_lookup ((processRows_inv image_map rows).2.2.2.2.2.1)
    ((processRows_inv image_map rows).2.2.2.2.2.2) ht

/-- Witness for C8: one row with id 1, a direct image URL, tag `"a"` and a
public-domain flag; tag id 1 gets `object_count = 1 = public_domain_count`. -/
theorem C8_tag_stats_witness :
    alookup (finalize_pull_schema
        (processRows [] [[("Object ID", "1"), ("Primary Image", "u"), ("Tags", "a"),
          ("Is Public Domain", "true")]]).pull.objects
        (processRows [] [[("Object ID", "1"), ("Primary Image", "u"), ("Tags", "a"),
          ("Is Public Domain", "true")]]).pull.objTags) 1 =
      some (((processRows [] [[("Object ID", "1"), ("Primary Image", "u"), ("Tags", "a"),
          ("Is Public Domain", "true")]]).pull.objTags.filter (fun p => p.2 = 1)).length,
        (((processRows [] [[("Object ID", "1"), ("Primary Image", "u"), ("Tags", "a"),
          ("Is Public Domain", "true")]]).pull.objTags.filter (fun p => p.2 = 1)).filter
          (fun p => (alookup (processRows [] [[("Object ID", "1"), ("Primary Image", "u"),
            ("Tags", "a"), ("Is Public Domain", "true")]]).pull.objects p.1).map
            PullObject.is_public_domain = some 1)).length) :=
  C8_tag_stats [] [[("Object ID", "1"), ("Primary Image", "u"), ("Tags", "a"),
    ("Is Public Domain", "true")]] 1 (by decide)

/-- C3: when an error is raised during the row pass or finalization (the
`except Exception` handler), the build closes both database connections,
deletes the partially written release directory — database files, manifest
and checksum listing included, so no artifact for this build id survives —
leaves `current` and `CURRENT_BUILD` untouched, and propagates the error.
The hypothesis says the release directory was freshly created (its build id
was not already taken, otherwise `mkdir(exist_ok=False)` fails before the
pass starts). -/
theorem C3_failure_cleanup (rows : List Row) (cache : List CacheRow)
    (csvPath cachePath : String) (now : Timestamp) (e : String) (fs : FS)
    (hfresh : alookup fs.releases now.build_id = none) :
    (build_master_dbs (some rows) (some cache) csvPath cachePath now (some e) fs).result =
      Except.error (BuildError.buildFailure e) ∧
    (build_master_dbs (some rows) (some cache) csvPath cachePath now (some e) fs).fs.releases =
      fs.releases ∧
    alookup (build_master_dbs (some rows) (some cache) csvPath cachePath now
      (some e) fs).fs.releases now.build_id = none ∧
    (build_master_dbs (some rows) (some cache) csvPath cachePath now (some e) fs).fs.current =
      fs.current ∧
    (build_master_dbs (some rows) (some cache) csvPath cachePath now
      (some e) fs).fs.current_build = fs.current_build ∧
    (build_master_dbs (some rows) (some cache) csvPath cachePath now
      (some e) fs).catalogConnClosed = true ∧
    (build_master_dbs (some rows) (some cache) csvPath cachePath now
      (some e) fs).pullConnClosed = true := by
  have hrel : (build_master_dbs (some rows) (some cache) csvPath cachePath now
      (some e) fs).fs.releases = fs.releases := by
    simp only [build_master_dbs, load_image_map, hfresh]
    exact removeKey_append_singleton fs.releases now.build_id {} hfresh
  refine ⟨?_, hrel, ?_, ?_, ?_, ?_, ?_⟩
  · simp only [build_master_dbs, load_image_map, hfresh]
  · rw [hrel]
    exact hfresh
  · simp only [build_master_dbs, load_image_map, hfresh]
  · simp only [build_master_dbs, load_image_map, hfresh]
  · simp only [build_master_dbs, load_image_map, hfresh]
  · simp only [build_master_dbs, load_image_map, hfresh]

/-- Witness for C3 at a concrete failing build over the empty file system. -/
theorem C3_failure_cleanup_witness :
    (build_master_dbs (some []) (some []) "filtered_objects.csv" "image_cache.db"
      ⟨"20240101T000000Z", "2024-01-01T00:00:00+00:00"⟩ (some "boom") {}).result =
      Except.error (BuildError.buildFailure "boom") ∧
    (build_master_dbs (some []) (some []) "filtered_objects.csv" "image_cache.db"
      ⟨"20240101T000000Z", "2024-01-01T00:00:00+00:00"⟩ (some "boom") {}).fs.releases =
      FS.releases {} ∧
    alookup (build_master_dbs (some []) (some []) "filtered_objects.csv" "image_cache.db"
      ⟨"20240101T000000Z", "2024-01-01T00:00:00+00:00"⟩ (some "boom") {}).fs.releases
      "20240101T000000Z" = none ∧
    (build_master_dbs (some []) (some []) "filtered_objects.csv" "image_cache.db"
      ⟨"20240101T000000Z", "2024-01-01T00:00:00+00:00"⟩ (some "boom") {}).fs.current =
      FS.current {} ∧
    (build_master_dbs (some []) (some []) "filtered_objects.csv" "image_cache.db"
      ⟨"20240101T000000Z", "2024-01-01T00:00:00+00:00"⟩ (some "boom") {}).fs.current_build =
      FS.current_build {} ∧
    (build_master_dbs (some []) (some []) "filtered_objects.csv" "image_cache.db"
      ⟨"20240101T000000Z", "2024-01-01T00:00:00+00:00"⟩ (some "boom") {}).catalogConnClosed =
      true ∧
    (build_master_dbs (some []) (some []) "filtered_objects.csv" "image_cache.db"
      ⟨"20240101T000000Z", "2024-01-01T00:00:00+00:00"⟩ (some "boom") {}).pullConnClosed =
      true :=
  C3_failure_cleanup [] [] "filtered_objects.csv" "image_cache.db"
    ⟨"20240101T000000Z", "2024-01-01T00:00:00+00:00"⟩ "boom" {} rfl

/-! ## Helper lemmas: the publisher trace -/

theorem runPub_cons (st : CurrentState) (ev : PubEv) (evs : List PubEv) :
    runPub st (ev :: evs) = runPub (pubStep st ev) evs := rfl

theorem runPub_append (st : CurrentState) (l1 l2 : List PubEv) :
    runPub st (l1 ++ l2) = runPub (runPub st l1) l2 :=
  List.foldl_append pubStep st l1 l2

theorem runPub_marker_of_no_writeMarker {evs : List PubEv}
    (h : ∀ b, PubEv.writeMarker b ∉ evs) (st : CurrentState) :
    (runPub st evs).marker = st.marker := by
  induction evs generalizing st with
  | nil => rfl
  | cons ev rest ih =>
    rw [runPub_cons, ih (fun b hb => h b (List.mem_cons_of_mem _ hb))]
    cases ev with
    | rmtreeCurrent => rfl
    | copyFile n c => rfl
    | writeMarker b => exact absurd (List.mem_cons_self _ _) (h b)

theorem runPub_copyFiles (files : List (String × String)) :
    ∀ (st : CurrentState) (acc : List (String × String)), st.current = some acc →
      runPub st (files.map (fun f => PubEv.copyFile f.1 f.2)) =
        { current := some (acc ++ files), marker := st.marker } := by
  induction files with
  | nil =>
    intro st acc h
    show st = { current := some (acc ++ []), marker := st.marker }
    rw [List.append_nil, ← h]
  | cons f rest ih =>
    intro st acc h
    obtain ⟨n, c⟩ := f
    rw [List.map_cons, runPub_cons]
    have hstep : pubStep st (PubEv.copyFile n c) =
        { current := some (acc ++ [(n, c)]), marker := st.marker } := by
      show ({ st with current := some ((st.current.getD []) ++ [(n, c)]) } : CurrentState) =
        { current := some (acc ++ [(n, c)]), marker := st.marker }
      rw [h]
      rfl
    rw [hstep, ih _ (acc ++ [(n, c)]) rfl]
    simp [List.append_assoc]

theorem runPub_copies_marker (files : List (String × String)) (f : String × String)
    (rest : List (String × String)) (b : String) {st : CurrentState}
    (hcur : st.current = none) (hf : files = f :: rest) :
    runPub st ((files.map (fun f => PubEv.copyFile f.1 f.2)) ++ [PubEv.writeMarker b]) =
      { current := some files, marker := some b } := by
  subst hf
  obtain ⟨n, c⟩ := f
  rw [List.map_cons, List.cons_append, runPub_cons]
  have hstep : pubStep st (PubEv.copyFile n c) =
      { current := some [(n, c)], marker := st.marker } := by
    show ({ st with current := some ((st.current.getD []) ++ [(n, c)]) } : CurrentState) =
      { current := some [(n, c)], marker := st.marker }
    rw [hcur]
    rfl
  rw [hstep, runPub_append, runPub_copyFiles rest _ [(n, c)] rfl]
  rfl

/-- C4 counterexample: publishing a two-file release over no existing
`current`, interrupted after the first externally visible effect, leaves
`current` holding exactly one of the two release files — a half-copied
current directory — while the marker still names the previous build.  This
refutes the claim's clause that no half-copied current directory is ever
left behind by a publisher failure. -/
theorem C4_publish_counterexample :
    (runPub { current := none, marker := some "20240101T000000Z" }
      ((publish_current_release false
        [("catalog_master.db", "A"), ("pull_master.db", "B")] "20240102T000000Z").take
          1)).current = some [("catalog_master.db", "A")] ∧
    (runPub { current := none, marker := some "20240101T000000Z" }
      ((publish_current_release false
        [("catalog_master.db", "A"), ("pull_master.db", "B")] "20240102T000000Z").take
          1)).marker = some "20240101T000000Z" := by
  constructor <;> rfl

/-- C4 amended: the publisher's effect order is remove-current, copy each
release file, then write the marker; consequently the marker is unchanged
under every strict prefix of the trace (so it is never updated before the
copy completes), and a completed publish replaces `current` with exactly the
release files and writes the new build id — but an interrupted copy can
leave a partially filled `current` behind (see the counterexample). -/
theorem C4_publish_order_amended (st : CurrentState) (files : List (String × String))
    (b : String) (hne : files ≠ []) :
    (∀ k, k < (publish_current_release st.current.isSome files b).length →
      (runPub st ((publish_current_release st.current.isSome files b).take k)).marker =
        st.marker) ∧
    runPub st (publish_current_release st.current.isSome files b) =
      { current := some files, marker := some b } := by
  obtain ⟨f, rest, hf⟩ : ∃ f rest, files = f :: rest := by
    cases files with
    | nil => exact absurd rfl hne
    | cons f rest => exact ⟨f, rest, rfl⟩
  have hsplit : publish_current_release st.current.isSome files b =
      ((if st.current.isSome then [PubEv.rmtreeCurrent] else []) ++
        files.map (fun f => PubEv.copyFile f.1 f.2)) ++ [PubEv.writeMarker b] := by
    unfold publish_current_release
    rw [List.append_assoc]
  constructor
  · intro k hk
    have hlen : (publish_current_release st.current.isSome files b).length =
        ((if st.current.isSome then [PubEv.rmtreeCurrent] else []) ++
          files.map (fun f => PubEv.copyFile f.1 f.2)).length + 1 := by
      rw [hsplit, List.length_append, List.length_singleton]
    have hk2 : k ≤ ((if st.current.isSome then [PubEv.rmtreeCurrent] else []) ++
        files.map (fun f => PubEv.copyFile f.1 f.2)).length := by omega
    rw [hsplit, List.take_append_of_le_length hk2]
    refine runPub_marker_of_no_writeMarker ?_ st
    intro b2 hb2
    have hb3 := List.take_subset k _ hb2
    rcases List.mem_append.mp hb3 with hb4 | hb4
    · by_cases hcase : st.current.isSome
      · rw [if_pos hcase] at hb4
        cases List.mem_singleton.mp hb4
      · rw [if_neg hcase] at hb4
        cases hb4
    · obtain ⟨q, _, hq2⟩ := List.mem_map.mp hb4
      cases hq2
  · by_cases hs : st.current.isSome = true
    · rw [hsplit, if_pos hs, List.singleton_append, List.cons_append, runPub_cons]
      exact runPub_copies_marker files f rest b rfl hf
    · have hcur : st.current = none := Option.not_isSome_iff_eq_none.mp (by simpa using hs)
      rw [hsplit, if_neg hs, List.nil_append]
      exact runPub_copies_marker files f rest b hcur hf

/-- Witness for C4's amended theorem: publishing one file over an empty
state; the strict one-event prefix leaves the marker unchanged and the full
run installs the file and the new build id. -/
theorem C4_publish_order_witness :
    (∀ k, k < (publish_current_release (Option.isSome (none : Option (List (String × String))))
        [("catalog_master.db", "A")] "20240102T000000Z").length →
      (runPub { current := none, marker := none }
        ((publish_current_release (Option.isSome (none : Option (List (String × String))))
          [("catalog_master.db", "A")] "20240102T000000Z").take k)).marker = none) ∧
    runPub { current := none, marker := none }
        (publish_current_release (Option.isSome (none : Option (List (String × String))))
          [("catalog_master.db", "A")] "20240102T000000Z") =
      { current := some [("catalog_master.db", "A")], marker := some "20240102T000000Z" } :=
  C4_publish_order_amended { current := none, marker := none }
    [("catalog_master.db", "A")] "20240102T000000Z" (by decide)

/-- C5 counterexample: two runs on byte-identical CSV rows and image-cache
contents, started at different clock readings, produce catalog databases with
different content — the embedded `build_info` rows record the run's
`build_id` and `generated_at_utc` — so their SHA-256 content hashes differ,
refuting the claim that any two runs on identical inputs yield identical
output hashes. -/
theorem C5_hash_counterexample :
    (buildDbContents "filtered_objects.csv" "image_cache.db"
        ⟨"20240101T000000Z", "2024-01-01T00:00:00+00:00"⟩ []
        [[("Object ID", "1"), ("Primary Image", "u")]]).1 ≠
      (buildDbContents "filtered_objects.csv" "image_cache.db"
        ⟨"20240102T000000Z", "2024-01-02T00:00:00+00:00"⟩ []
        [[("Object ID", "1"), ("Primary Image", "u")]]).1 ∧
    (processRows [] [[("Object ID", "1"), ("Primary Image", "u")]]).stats.rows_with_images =
      1 := by
  constructor
  · decide
  · decide

/-- C5 amended: two successful runs on identical CSV and image-cache inputs
always produce identical `BuildStats` (the counters do not depend on the
clock); the output database contents — and hence their SHA-256 hashes, which
are a deterministic, collision-free function of content — are identical
exactly when the two runs observe the same timestamp, and the catalog
contents differ whenever the recorded `generated_at_utc` values differ,
because the timestamp is embedded in each database's `build_info` table. -/
theorem C5_determinism_amended (rows : List Row) (cache : List CacheRow)
    (csvPath cachePath : String) (now1 now2 : Timestamp) (fs1 fs2 : FS)
    (h1 : alookup fs1.releases now1.build_id = none)
    (h2 : alookup fs2.releases now2.build_id = none) :
    ∃ m1 m2,
      (build_master_dbs (some rows) (some cache) csvPath cachePath now1 none fs1).result =
        Except.ok m1 ∧
      (build_master_dbs (some rows) (some cache) csvPath cachePath now2 none fs2).result =
        Except.ok m2 ∧
      m1.stats = m2.stats ∧
      (now1 = now2 →
        m1.catalog_sha256 = m2.catalog_sha256 ∧ m1.pull_sha256 = m2.pull_sha256) ∧
      (now1.iso ≠ now2.iso → m1.catalog_sha256 ≠ m2.catalog_sha256) := by
  refine ⟨buildManifest csvPath cachePath now1 (imageMapOfRows cache) rows,
    buildManifest csvPath cachePath now2 (imageMapOfRows cache) rows, ?_, ?_, rfl, ?_, ?_⟩
  · simp only [build_master_dbs, load_image_map, h1]
  · simp only [build_master_dbs, load_image_map, h2]
  · intro heq
    subst heq
    exact ⟨rfl, rfl⟩
  · intro hne hcontra
    apply hne
    have hbi := congrArg CatalogDb.build_info hcontra
    show now1.iso = now2.iso
    have hinfo : buildInfoOf csvPath cachePath now1 = buildInfoOf csvPath cachePath now2 := hbi
    simp only [buildInfoOf, List.cons.injEq, Prod.mk.injEq, and_true, true_and] at hinfo
    exact hinfo.2

/-- Witness for C5's amended theorem at one concrete row, equal timestamps
and the empty output tree. -/
theorem C5_determinism_witness :
    ∃ m1 m2,
      (build_master_dbs (some [[("Object ID", "1"), ("Primary Image", "u")]]) (some [])
        "filtered_objects.csv" "image_cache.db"
        ⟨"20240101T000000Z", "2024-01-01T00:00:00+00:00"⟩ none {}).result =
        Except.ok m1 ∧
      (build_master_dbs (some [[("Object ID", "1"), ("Primary Image", "u")]]) (some [])
        "filtered_objects.csv" "image_cache.db"
        ⟨"20240101T000000Z", "2024-01-01T00:00:00+00:00"⟩ none {}).result =
        Except.ok m2 ∧
      m1.stats = m2.stats ∧
      ((⟨"20240101T000000Z", "2024-01-01T00:00:00+00:00"⟩ : Timestamp) =
          ⟨"20240101T000000Z", "2024-01-01T00:00:00+00:00"⟩ →
        m1.catalog_sha256 = m2.catalog_sha256 ∧ m1.pull_sha256 = m2.pull_sha256) ∧
      ((⟨"20240101T000000Z", "2024-01-01T00:00:00+00:00"⟩ : Timestamp).iso ≠
          (⟨"20240101T000000Z", "2024-01-01T00:00:00+00:00"⟩ : Timestamp).iso →
        m1.catalog_sha256 ≠ m2.catalog_sha256) :=
  C5_determinism_amended [[("Object ID", "1"), ("Primary Image", "u")]] []
    "filtered_objects.csv" "image_cache.db"
    ⟨"20240101T000000Z", "2024-01-01T00:00:00+00:00"⟩
    ⟨"20240101T000000Z", "2024-01-01T00:00:00+00:00"⟩ {} {} rfl rfl

/-! ## Helper lemmas: the image map fold -/

theorem nodup_keys_upsert {α β : Type} [DecidableEq α] {l : List (α × β)}
    (h : (l.map Prod.fst).Nodup) (k : α) (v : β) :
    ((upsert l k v).map Prod.fst).Nodup := by
  rw [map_fst_upsert]
  by_cases hm : k ∈ l.map Prod.fst
  · rw [if_pos hm]
    exact h
  · rw [if_neg hm, List.nodup_append]
    refine ⟨h, List.nodup_singleton k, ?_⟩
    intro a ha hb
    exact hm (by rwa [List.mem_singleton.mp hb] at ha)

theorem imageMap_fold_nodup (l : List CacheRow) (acc : List (Int × (String × String)))
    (h : (acc.map Prod.fst).Nodup) :
    ((l.foldl (fun m r => upsert m r.1 (text (some r.2.1), text (some r.2.2))) acc).map
      Prod.fst).Nodup := by
  induction l generalizing acc with
  | nil => exact h
  | cons r rest ih => exact ih _ (nodup_keys_upsert h _ _)

theorem imageMap_fold_prov {P : Int × (String × String) → Prop} (l : List CacheRow)
    (acc : List (Int × (String × String)))
    (hl : ∀ r ∈ l, P (r.1, (text (some r.2.1), text (some r.2.2))))
    (hacc : ∀ p ∈ acc, P p) :
    ∀ p ∈ l.foldl (fun m r => upsert m r.1 (text (some r.2.1), text (some r.2.2))) acc,
      P p := by
  induction l generalizing acc with
  | nil => exact hacc
  | cons r rest ih =>
    refine ih _ (fun q hq => hl q (List.mem_cons_of_mem _ hq)) ?_
    intro p hp
    rcases mem_upsert hp with h8 | h8
    · rw [h8]
      exact hl r (List.mem_cons_self r rest)
    · exact hacc p h8

/-- C9 counterexample: a cache row whose `primary_image` is a bare space
passes the SQL filter (the raw field is non-empty), but after `text`
normalization the stored entry has both URL strings empty — refuting the
claim that every entry of the returned map has at least one trimmed URL
non-empty. -/
theorem C9_loader_counterexample :
    ∃ m, load_image_map (some [(1, (" ", ""))]) = Except.ok m ∧
      ¬ (∀ p ∈ m, p.2.1 ≠ "" ∨ p.2.2 ≠ "") :=
  ⟨[(1, ("", ""))], rfl, by decide⟩

/-- C9 amended: the loader fails exactly when the cache file is absent;
otherwise it returns a map with at most one entry per object id (keys are
unique), and every entry comes from a cache row whose RAW URL fields are not
both empty, carrying that row's trimmed URL pair — which may be entirely
empty after trimming. -/
theorem C9_loader_amended :
    load_image_map none = Except.error "Image cache DB not found" ∧
    ∀ rows : List CacheRow,
      load_image_map (some rows) = Except.ok (imageMapOfRows rows) ∧
      ((imageMapOfRows rows).map Prod.fst).Nodup ∧
      ∀ p ∈ imageMapOfRows rows, ∃ r ∈ rows,
        p.1 = r.1 ∧ (r.2.1 ≠ "" ∨ r.2.2 ≠ "") ∧
        p.2 = (text (some r.2.1), text (some r.2.2)) := by
  refine ⟨rfl, fun rows => ⟨rfl, ?_, ?_⟩⟩
  · exact imageMap_fold_nodup _ [] List.nodup_nil
  · refine imageMap_fold_prov _ [] ?_ (fun p hp => absurd hp (List.not_mem_nil p))
    intro r hr
    have hmf := List.mem_filter.mp hr
    exact ⟨r, hmf.1, rfl, of_decide_eq_true hmf.2, rfl⟩

/-- Witness for C9's amended theorem on a one-row cache. -/
theorem C9_loader_witness :
    load_image_map (some [(2, ("u", ""))]) = Except.ok (imageMapOfRows [(2, ("u", ""))]) ∧
    ∃ r ∈ [((2 : Int), (("u" : String), ("" : String)))],
      ((2 : Int), (("u" : String), ("" : String))).1 = r.1 ∧
      (r.2.1 ≠ "" ∨ r.2.2 ≠ "") ∧
      ((2 : Int), (("u" : String), ("" : String))).2 =
        (text (some r.2.1), text (some r.2.2)) :=
  ⟨(C9_loader_amended.2 [(2, ("u", ""))]).1,
    (C9_loader_amended.2 [(2, ("u", ""))]).2.2 (2, ("u", "")) (by decide)⟩

end ArtGG
